import Mathlib

/-!
Verification of the Awesome-Story-Visualization README generator (`main.py`).

The generator is a deterministic transform: it loads a JSON catalog
(category name ↦ list of entries), renders each of the three fixed
categories ("papers", "benchmarks", "datasets") as a Markdown section with
entries sorted by parsed date descending, and assembles the final document.

Shallow embedding notes:
* Entry field values are modelled by `PyVal` (JSON null, string, or list of
  strings — the value shapes the data model of the catalog uses); an entry
  is an association list of field name to value, mirroring a Python dict
  with unique keys; a catalog maps category names to entry lists.
* Python `dict.get(k, default)` is `dictGet`; Python truthiness on these
  values is `pyTruthy`; `str()` interpolation is `pyStr`.
* `datetime.strptime(s, "%Y-%m-%d")` is modelled by `strptimeYmd`
  following CPython's `_strptime` regexes: `%Y` is exactly four digits
  (`\d\d\d\d`), `%m` is `1[0-2]|0[1-9]|[1-9]`, `%d` is
  `3[01]|[12]\d|0[1-9]|[1-9]`, the whole string must be consumed, and the
  resulting calendar date must exist (month length, leap years) with
  year ≥ 1.  Digits are modelled as ASCII digits.  A parsed date is encoded
  as the natural number `y*10000 + m*100 + d`, which orders valid dates
  exactly as `datetime` does; `datetime.min` is `minDateKey` (0001-01-01).
* `list.sort(key=..., reverse=True)` is modelled by `sortDesc`, a stable
  insertion sort that places an element before the first element whose key
  is ≤ its own: the unique stable, descending-by-key permutation, which is
  what CPython's sort with `reverse=True` produces.  The sort mutates the
  stored list in place, so section generation returns an updated catalog.
* A raised exception is modelled by `Option.none` (`_format_entry` can
  raise a `TypeError` when a present `keywords` value is not joinable);
  file-system effects are modelled explicitly in `run_program`.
-/

/-- A JSON/Python value as it can appear in an entry field. -/
inductive PyVal where
  | none
  | str (s : String)
  | strList (xs : List String)
deriving DecidableEq, Repr

/-- One catalog entry: a Python dict from field name to value. -/
def Entry : Type := List (String × PyVal)

instance : DecidableEq Entry := by unfold Entry; infer_instance

/-- The root catalog: category name ↦ ordered list of entries. -/
def Catalog : Type := List (String × List Entry)

instance : DecidableEq Catalog := by unfold Catalog; infer_instance

/-- Python `entry.get(key, default)`: value of the first binding of `key`,
or `default` when the key is absent. -/
def dictGet (e : Entry) (k : String) (d : PyVal) : PyVal :=
  match e with
  | [] => d
  | (k', v) :: rest => if k' = k then v else dictGet rest k d

/-- Python truthiness of a `PyVal` (`if entry.get("arxiv"):`). -/
def pyTruthy : PyVal → Bool
  | PyVal.none => false
  | PyVal.str s => if s = "" then false else true
  | PyVal.strList xs => if xs = [] then false else true

/-- `sep.join(parts)` for a list of strings (Python `str.join`). -/
def joinSep (sep : String) : List String → String
  | [] => ""
  | x :: xs =>
    match xs with
    | [] => x
    | _ :: _ => x ++ sep ++ joinSep sep xs

/-- Python `repr` of a string, as used by `str(list_of_str)`.  CPython
prefers single quotes, switching to double quotes when the string contains
a single quote but no double quote, and escapes backslashes, the chosen
quote, and the common control characters.  (Hex escapes for other
non-printable characters are not modelled; no claim depends on them.) -/
def pyReprStr (s : String) : String :=
  let sq : Char := Char.ofNat 39
  let dq : Char := Char.ofNat 34
  let q : Char := if s.contains sq ∧ ¬ s.contains dq then dq else sq
  let esc : Char → String := fun c =>
    if c = '\\' then "\\\\"
    else if c = q then "\\" ++ String.mk [q]
    else if c = '\n' then "\\n"
    else if c = '\r' then "\\r"
    else if c = '\t' then "\\t"
    else String.mk [c]
  String.mk [q] ++ String.join (s.data.map esc) ++ String.mk [q]

/-- Python `str()` of a `PyVal`, as applied by f-string interpolation:
`None` prints as `"None"`, a string prints as itself, a list prints as
`[repr(x1), ...]`. -/
def pyStr : PyVal → String
  | PyVal.none => "None"
  | PyVal.str s => s
  | PyVal.strList xs => "[" ++ joinSep ", " (xs.map pyReprStr) ++ "]"

/-- `", ".join(value)`: succeeds on a list of strings, iterates the
characters of a string, and raises `TypeError` (modelled as `Option.none`)
on `None`. -/
def pyJoinVal (sep : String) : PyVal → Option String
  | PyVal.str s => some (joinSep sep (s.data.map (fun c => String.mk [c])))
  | PyVal.strList xs => some (joinSep sep xs)
  | PyVal.none => Option.none

/-- The arXiv badge Markdown for link target `a` (line 27 of `main.py`). -/
def arxivBadgeStr (a : String) : String :=
  "[![arXiv](https://img.shields.io/badge/arXiv-Paper-b31b1b.svg)](" ++ a ++ ")"

/-- The GitHub badge Markdown for link target `g` (line 32 of `main.py`). -/
def githubBadgeStr (g : String) : String :=
  "[![GitHub](https://img.shields.io/badge/GitHub-Repo-181717.svg?logo=github)](" ++ g ++ ")"

/-- `AwesomeReadmeGenerator._generate_badges`: appends the arXiv badge when
`entry.get("arxiv")` is truthy, then the GitHub badge when
`entry.get("github")` is truthy, and joins with a single space. -/
def generate_badges (entry : Entry) : String :=
  let badges : List String :=
    (if pyTruthy (dictGet entry "arxiv" PyVal.none) then
      [arxivBadgeStr (pyStr (dictGet entry "arxiv" PyVal.none))]
    else []) ++
    (if pyTruthy (dictGet entry "github" PyVal.none) then
      [githubBadgeStr (pyStr (dictGet entry "github" PyVal.none))]
    else [])
  joinSep " " badges

/-- `AwesomeReadmeGenerator._format_entry`: one Markdown block per entry;
`Option.none` models the `TypeError` raised when a present `keywords`
value cannot be joined. -/
def format_entry (entry : Entry) : Option String :=
  let title := pyStr (dictGet entry "title" (PyVal.str "Untitled"))
  let url := pyStr (dictGet entry "url" (PyVal.str "#"))
  let venue := pyStr (dictGet entry "venue" (PyVal.str "Preprint"))
  match pyJoinVal ", " (dictGet entry "keywords" (PyVal.strList [])) with
  | Option.none => Option.none
  | some keywords =>
    let badges := generate_badges entry
    let line := "**" ++ title ++ "** <br> [`" ++ venue ++ "`](" ++ url ++ ") " ++ badges
    let line := if keywords = "" then line
      else line ++ " <br> _Keywords: " ++ keywords ++ "_"
    some (line ++ " <br> <br> ")

/-- ASCII decimal digit (`\d` of the CPython `_strptime` regexes). -/
def isDigitChar (c : Char) : Bool :=
  decide (48 ≤ c.toNat ∧ c.toNat ≤ 57)

/-- Two-digit month per the `%m` regex alternatives `1[0-2] | 0[1-9]`. -/
def monthTwo (a b : Char) : Option Nat :=
  if a.toNat = 49 ∧ 48 ≤ b.toNat ∧ b.toNat ≤ 50 then some (10 + (b.toNat - 48))
  else if a.toNat = 48 ∧ 49 ≤ b.toNat ∧ b.toNat ≤ 57 then some (b.toNat - 48)
  else Option.none

/-- One-digit month per the `%m` regex alternative `[1-9]`. -/
def monthOne (a : Char) : Option Nat :=
  if 49 ≤ a.toNat ∧ a.toNat ≤ 57 then some (a.toNat - 48) else Option.none

/-- Two-digit day per the `%d` regex alternatives `3[01] | [12]\d | 0[1-9]`. -/
def dayTwo (a b : Char) : Option Nat :=
  if a.toNat = 51 ∧ 48 ≤ b.toNat ∧ b.toNat ≤ 49 then some (30 + (b.toNat - 48))
  else if (a.toNat = 49 ∨ a.toNat = 50) ∧ 48 ≤ b.toNat ∧ b.toNat ≤ 57 then
    some ((a.toNat - 48) * 10 + (b.toNat - 48))
  else if a.toNat = 48 ∧ 49 ≤ b.toNat ∧ b.toNat ≤ 57 then some (b.toNat - 48)
  else Option.none

/-- One-digit day per the `%d` regex alternative `[1-9]`. -/
def dayOne (a : Char) : Option Nat :=
  if 49 ≤ a.toNat ∧ a.toNat ≤ 57 then some (a.toNat - 48) else Option.none

/-- The day part must consume the remainder of the string: two digits, or
one digit (the one-digit alternative cannot leave a character over). -/
def dayPart : List Char → Option Nat
  | [a, b] => dayTwo a b
  | [a] => dayOne a
  | _ => Option.none

/-- The two-digit-month alternative of the month-dash-day match. -/
def monthDayPartTwo (l : List Char) : Option (Nat × Nat) :=
  match l with
  | a :: b :: c :: rest =>
    if c = '-' then
      match monthTwo a b with
      | some m =>
        match dayPart rest with
        | some d => some (m, d)
        | Option.none => Option.none
      | Option.none => Option.none
    else Option.none
  | _ => Option.none

/-- The one-digit-month alternative of the month-dash-day match. -/
def monthDayPartOne (l : List Char) : Option (Nat × Nat) :=
  match l with
  | a :: b :: rest =>
    if b = '-' then
      match monthOne a with
      | some m =>
        match dayPart rest with
        | some d => some (m, d)
        | Option.none => Option.none
      | Option.none => Option.none
    else Option.none
  | _ => Option.none

/-- Month-dash-day matching with the regex's backtracking order: the
two-digit month alternatives are tried before the one-digit one. -/
def monthDayPart (l : List Char) : Option (Nat × Nat) :=
  match monthDayPartTwo l with
  | some md => some md
  | Option.none => monthDayPartOne l

/-- 1582-free proleptic Gregorian leap-year rule used by `datetime`. -/
def isLeapYear (y : Nat) : Bool :=
  decide (y % 4 = 0 ∧ (y % 100 ≠ 0 ∨ y % 400 = 0))

/-- Number of days in month `m` of year `y` (as `datetime` validates). -/
def daysInMonth (y m : Nat) : Nat :=
  if m = 2 then (if isLeapYear y then 29 else 28)
  else if m = 4 ∨ m = 6 ∨ m = 9 ∨ m = 11 then 30
  else 31

/-- Numeric value of the four `%Y` digit characters. -/
def yearVal (y1 y2 y3 y4 : Char) : Nat :=
  (((y1.toNat - 48) * 10 + (y2.toNat - 48)) * 10 + (y3.toNat - 48)) * 10 + (y4.toNat - 48)

/-- `strptimeYmd` on the character list of the input string: four digits,
dash, month, dash, day, end of string, then calendar validation
(`datetime` construction). -/
def strptimeYmdChars (l : List Char) : Option (Nat × Nat × Nat) :=
  match l with
  | y1 :: y2 :: y3 :: y4 :: sep :: rest =>
    if isDigitChar y1 ∧ isDigitChar y2 ∧ isDigitChar y3 ∧ isDigitChar y4 ∧ sep = '-' then
      match monthDayPart rest with
      | some (m, d) =>
        if 1 ≤ yearVal y1 y2 y3 y4 ∧ d ≤ daysInMonth (yearVal y1 y2 y3 y4) m then
          some (yearVal y1 y2 y3 y4, m, d)
        else Option.none
      | Option.none => Option.none
    else Option.none
  | _ => Option.none

/-- `datetime.strptime(s, "%Y-%m-%d")`. -/
def strptimeYmd (s : String) : Option (Nat × Nat × Nat) :=
  strptimeYmdChars s.data

/-- Order-preserving encoding of a calendar date (`y*10000 + m*100 + d`). -/
def dateKey (y m d : Nat) : Nat := y * 10000 + m * 100 + d

/-- Encoding of `datetime.min` = 0001-01-01, the failure sentinel. -/
def minDateKey : Nat := dateKey 1 1 1

/-- `AwesomeReadmeGenerator._parse_date`: parse a value as `YYYY-MM-DD`;
any failure (wrong format, empty, `None`, non-string) yields the
`datetime.min` sentinel. -/
def parse_date (v : PyVal) : Nat :=
  match v with
  | PyVal.str s =>
    match strptimeYmd s with
    | some (y, m, d) => dateKey y m d
    | Option.none => minDateKey
  | _ => minDateKey

/-- The sort key of an entry: `self._parse_date(x.get("date"))`. -/
def entryDateKey (e : Entry) : Nat := parse_date (dictGet e "date" PyVal.none)

/-- Whether an entry's `date` field is present and parses as `YYYY-MM-DD`. -/
def hasValidDate (e : Entry) : Bool :=
  match dictGet e "date" PyVal.none with
  | PyVal.str s => (strptimeYmd s).isSome
  | _ => false

/-- Insert `x` before the first element whose key is ≤ `key x`. -/
def insertDesc {α : Type} (key : α → Nat) (x : α) : List α → List α
  | [] => [x]
  | y :: ys => if key y ≤ key x then x :: y :: ys else y :: insertDesc key x ys

/-- Stable descending sort by `key`: the model of
`entries.sort(key=..., reverse=True)` (CPython's sort is stable, and
`reverse=True` keeps ties in input order). -/
def sortDesc {α : Type} (key : α → Nat) : List α → List α
  | [] => []
  | x :: xs => insertDesc key x (sortDesc key xs)

/-- `self.data.get(key, [])`: the entry list stored under a category key,
or the empty list when the key is absent. -/
def catGet (data : Catalog) (key : String) : List Entry :=
  match data with
  | [] => []
  | (k, v) :: rest => if k = key then v else catGet rest key

/-- Replace the value stored under an existing key (the in-place list sort
updates the list object held by the dict; an absent key is untouched). -/
def catSet (data : Catalog) (key : String) (val : List Entry) : Catalog :=
  match data with
  | [] => []
  | (k, v) :: rest => if k = key then (k, val) :: rest else (k, v) :: catSet rest key val

/-- The Markdown text of one section, from the category's entry list:
empty list → empty string (no heading); otherwise a `## title` heading
followed by the formatted blocks of the date-sorted entries.
`Option.none` models an exception escaping `_format_entry`. -/
def sectionStr (title : String) (entries : List Entry) : Option String :=
  if entries = [] then some ""
  else
    match (sortDesc entryDateKey entries).mapM format_entry with
    | Option.none => Option.none
    | some blocks =>
      some (joinSep "\n" (("## " ++ title ++ "\n") :: blocks) ++ "\n")

/-- The catalog after `_generate_section` ran on `key`: a non-empty stored
list is sorted in place; an empty or absent one is left alone (the early
return fires before the sort). -/
def sectionState (data : Catalog) (key : String) : Catalog :=
  if catGet data key = [] then data
  else catSet data key (sortDesc entryDateKey (catGet data key))

/-- `AwesomeReadmeGenerator._generate_section`: the rendered text and the
(possibly mutated) catalog. -/
def generate_section (data : Catalog) (title key : String) :
    Option String × Catalog :=
  (sectionStr title (catGet data key), sectionState data key)

/-- `AwesomeReadmeGenerator._generate_intro`: the fixed introduction. -/
def generate_intro : String :=
  "<h1 align=\"center\">Awesome Story Visualization</h1>\n\n" ++
  "A curated list of resources, papers, and benchmarks focused on " ++
  "**Story Visualization**.\n\n" ++
  "Entries are sorted by date (newest first).\n\n" ++
  "If you want to contribute, please edit the `citations.json` file, " ++
  "run the generator script, and create a pull request.\n\n" ++
  "If you are looking for Storytelling, text based, take a look at [Awesome-Story-Generation](https://github.com/yingpengma/Awesome-Story-Generation).\n\n" ++
  "---\n"

/-- `AwesomeReadmeGenerator.generate` up to the file write: the assembled
document (`Option.none` models an exception aborting the run) and the
in-memory catalog as it stands when control returns (sections already
processed stay sorted even when a later section raises). -/
def generate (data : Catalog) : Option String × Catalog :=
  match generate_section data "Papers" "papers" with
  | (Option.none, d1) => (Option.none, d1)
  | (some s1, d1) =>
    match generate_section d1 "Benchmarks" "benchmarks" with
    | (Option.none, d2) => (Option.none, d2)
    | (some s2, d2) =>
      match generate_section d2 "Datasets" "datasets" with
      | (Option.none, d3) => (Option.none, d3)
      | (some s3, d3) =>
        (some (joinSep "\n" [generate_intro, s1, s2, s3]), d3)

/-- `AwesomeReadmeGenerator._load_data`: `FileNotFoundError` when the
input path does not exist, otherwise the parsed catalog.  The input file
system maps existing paths to their parsed JSON content. -/
def load_data (fs : String → Option Catalog) (path : String) :
    Except String Catalog :=
  match fs path with
  | Option.none => Except.error ("Could not find " ++ path)
  | some d => Except.ok d

/-- A whole program run: construct the generator (which loads the data),
then `generate()`.  The result is the list of file writes performed
(path, content); any raised error performs no write, since the output file
is opened only after the document is fully assembled. -/
def run_program (fs : String → Option Catalog) (jsonPath outPath : String) :
    Except String (List (String × String)) :=
  match load_data fs jsonPath with
  | Except.error e => Except.error e
  | Except.ok data =>
    match generate data with
    | (Option.none, _) => Except.error "TypeError"
    | (some doc, _) => Except.ok [(outPath, doc)]

/-- Apply a list of writes to a text-file store. -/
def applyWrites (out : String → Option String) :
    List (String × String) → (String → Option String)
  | [] => out
  | (p, c) :: rest => applyWrites (fun q => if q = p then some c else out q) rest

/-- The output-file store after a run: unchanged when the run failed. -/
def finalOutFS (out : String → Option String)
    (r : Except String (List (String × String))) : String → Option String :=
  match r with
  | Except.error _ => out
  | Except.ok ws => applyWrites out ws

theorem insertDesc_perm {α : Type} (key : α → Nat) (x : α) (l : List α) :
    (insertDesc key x l).Perm (x :: l) := by
  induction l with
  | nil => exact List.Perm.refl _
  | cons y ys ih =>
    unfold insertDesc
    by_cases h : key y ≤ key x
    · rw [if_pos h]
    · rw [if_neg h]
      exact (ih.cons y).trans (List.Perm.swap x y ys)

theorem sortDesc_perm {α : Type} (key : α → Nat) (l : List α) :
    (sortDesc key l).Perm l := by
  induction l with
  | nil => exact List.Perm.refl _
  | cons x xs ih => exact (insertDesc_perm key x _).trans (ih.cons x)

theorem insertDesc_pairwise {α : Type} (key : α → Nat) (x : α) (l : List α)
    (h : l.Pairwise (fun a b => key b ≤ key a)) :
    (insertDesc key x l).Pairwise (fun a b => key b ≤ key a) := by
  induction l with
  | nil => simp [insertDesc]
  | cons y ys ih =>
    rw [List.pairwise_cons] at h
    unfold insertDesc
    by_cases hxy : key y ≤ key x
    · rw [if_pos hxy, List.pairwise_cons]
      refine ⟨?_, List.pairwise_cons.mpr h⟩
      intro b hb
      rcases List.mem_cons.mp hb with rfl | hb'
      · exact hxy
      · exact le_trans (h.1 b hb') hxy
    · rw [if_neg hxy, List.pairwise_cons]
      refine ⟨?_, ih h.2⟩
      intro b hb
      rcases List.mem_cons.mp ((insertDesc_perm key x ys).mem_iff.mp hb) with rfl | hb'
      · omega
      · exact h.1 b hb'

theorem sortDesc_pairwise {α : Type} (key : α → Nat) (l : List α) :
    (sortDesc key l).Pairwise (fun a b => key b ≤ key a) := by
  induction l with
  | nil => simp [sortDesc]
  | cons x xs ih => exact insertDesc_pairwise key x _ ih

theorem filter_insertDesc {α : Type} (key : α → Nat) (v : Nat) (x : α) (l : List α) :
    (insertDesc key x l).filter (fun a => key a == v)
      = if key x = v then x :: l.filter (fun a => key a == v)
        else l.filter (fun a => key a == v) := by
  induction l with
  | nil => by_cases h : key x = v <;> simp [insertDesc, h]
  | cons y ys ih =>
    unfold insertDesc
    by_cases hxy : key y ≤ key x
    · rw [if_pos hxy, List.filter_cons]
      by_cases h : key x = v <;> simp [h]
    · rw [if_neg hxy, List.filter_cons, List.filter_cons, ih]
      by_cases h : key x = v
      · have hy : ¬ (key y = v) := by omega
        simp [h, hy, List.filter_cons]
      · by_cases hy : key y = v <;> simp [h, hy, List.filter_cons]

theorem sortDesc_filter {α : Type} (key : α → Nat) (v : Nat) (l : List α) :
    (sortDesc key l).filter (fun a => key a == v) = l.filter (fun a => key a == v) := by
  induction l with
  | nil => rfl
  | cons x xs ih =>
    show ((insertDesc key x (sortDesc key xs)).filter _) = _
    rw [filter_insertDesc, List.filter_cons]
    by_cases h : key x = v <;> simp [h, ih]

theorem catGet_catSet_ne (data : Catalog) (k k2 : String) (v : List Entry)
    (h : k2 ≠ k) : catGet (catSet data k v) k2 = catGet data k2 := by
  induction data with
  | nil => rfl
  | cons p rest ih =>
    obtain ⟨pk, pv⟩ := p
    by_cases hp : pk = k
    · subst hp
      have hne : ¬ (pk = k2) := fun hh => h (hh.symm)
      simp [catSet, catGet, hne]
    · simp [catSet, catGet, hp, ih]

theorem catGet_catSet_self (data : Catalog) (k : String) (v : List Entry)
    (h : catGet data k ≠ []) : catGet (catSet data k v) k = v := by
  induction data with
  | nil => simp [catGet] at h
  | cons p rest ih =>
    obtain ⟨pk, pv⟩ := p
    by_cases hp : pk = k
    · subst hp
      simp [catSet, catGet]
    · simp only [catGet, catSet, if_neg hp] at h ⊢
      exact ih h

theorem catGet_sectionState_ne (data : Catalog) (key k2 : String) (h : k2 ≠ key) :
    catGet (sectionState data key) k2 = catGet data k2 := by
  unfold sectionState
  by_cases he : catGet data key = []
  · rw [if_pos he]
  · rw [if_neg he, catGet_catSet_ne data key k2 _ h]

theorem catGet_sectionState_perm (data : Catalog) (key k2 : String) :
    (catGet (sectionState data key) k2).Perm (catGet data k2) := by
  by_cases h : k2 = key
  · subst h
    unfold sectionState
    by_cases he : catGet data k2 = []
    · rw [if_pos he]
    · rw [if_neg he, catGet_catSet_self _ _ _ he]
      exact sortDesc_perm _ _
  · rw [catGet_sectionState_ne data key k2 h]

theorem generate_snd_cases (data : Catalog) :
    (generate data).2
        = sectionState (sectionState (sectionState data "papers") "benchmarks") "datasets"
      ∨ (generate data).2 = sectionState (sectionState data "papers") "benchmarks"
      ∨ (generate data).2 = sectionState data "papers" := by
  cases hs1 : sectionStr "Papers" (catGet data "papers") with
  | none => simp [generate, generate_section, hs1]
  | some s1 =>
    cases hs2 : sectionStr "Benchmarks" (catGet (sectionState data "papers") "benchmarks") with
    | none => simp [generate, generate_section, hs1, hs2]
    | some s2 =>
      cases hs3 : sectionStr "Datasets"
          (catGet (sectionState (sectionState data "papers") "benchmarks") "datasets") with
      | none => simp [generate, generate_section, hs1, hs2, hs3]
      | some s3 => simp [generate, generate_section, hs1, hs2, hs3]

/-- How the three section texts combine into the final document. -/
def assembleDoc (o1 o2 o3 : Option String) : Option String :=
  match o1, o2, o3 with
  | some s1, some s2, some s3 => some (joinSep "\n" [generate_intro, s1, s2, s3])
  | _, _, _ => Option.none

theorem generate_fst (data : Catalog) :
    (generate data).1 = assembleDoc (sectionStr "Papers" (catGet data "papers"))
      (sectionStr "Benchmarks" (catGet data "benchmarks"))
      (sectionStr "Datasets" (catGet data "datasets")) := by
  have hb : catGet (sectionState data "papers") "benchmarks" = catGet data "benchmarks" :=
    catGet_sectionState_ne _ _ _ (by decide)
  have hd : catGet (sectionState (sectionState data "papers") "benchmarks") "datasets"
      = catGet data "datasets" := by
    rw [catGet_sectionState_ne _ _ _ (by decide), catGet_sectionState_ne _ _ _ (by decide)]
  cases hs1 : sectionStr "Papers" (catGet data "papers") <;>
    cases hs2 : sectionStr "Benchmarks" (catGet data "benchmarks") <;>
      cases hs3 : sectionStr "Datasets" (catGet data "datasets") <;>
        simp [generate, generate_section, assembleDoc, hb, hd, hs1, hs2, hs3]

theorem assembleDoc_eq_some (o1 o2 o3 : Option String) (s : String)
    (h : assembleDoc o1 o2 o3 = some s) :
    ∃ s1 s2 s3, o1 = some s1 ∧ o2 = some s2 ∧ o3 = some s3 ∧
      s = joinSep "\n" [generate_intro, s1, s2, s3] := by
  cases o1 <;> cases o2 <;> cases o3 <;> simp [assembleDoc] at h
  exact ⟨_, _, _, rfl, rfl, rfl, h.symm⟩

theorem sectionStr_empty (title : String) : sectionStr title [] = some "" := by
  simp [sectionStr]

theorem sectionStr_heading (title : String) (entries : List Entry) (s : String)
    (hne : entries ≠ []) (h : sectionStr title entries = some s) :
    ∃ r, s = "## " ++ title ++ "\n" ++ r := by
  unfold sectionStr at h
  rw [if_neg hne] at h
  cases hm : (sortDesc entryDateKey entries).mapM format_entry with
  | none => rw [hm] at h; cases h
  | some blocks =>
    rw [hm] at h
    have hs := Option.some.inj h
    cases blocks with
    | nil => exact ⟨"\n", by rw [← hs]; simp [joinSep]⟩
    | cons b bs =>
      refine ⟨"\n" ++ (joinSep "\n" (b :: bs) ++ "\n"), ?_⟩
      rw [← hs]
      show joinSep "\n" (("## " ++ title ++ "\n") :: b :: bs) ++ "\n" = _
      conv_lhs => rw [joinSep]
      simp only [String.append_assoc]

/-- The ASCII digit character for `n` (0–9). -/
def digitChar48 (n : Nat) : Char := Char.ofNat (48 + n)

/-- Two-digit zero-padded decimal rendering (the `MM` / `DD` fields). -/
def pad2Chars (n : Nat) : List Char := [digitChar48 (n / 10), digitChar48 (n % 10)]

/-- Four-digit zero-padded decimal rendering (the `YYYY` field). -/
def pad4Chars (n : Nat) : List Char :=
  [digitChar48 (n / 1000), digitChar48 (n / 100 % 10), digitChar48 (n / 10 % 10),
    digitChar48 (n % 10)]

/-- The canonical `YYYY-MM-DD` rendering of a calendar date: the spec's
well-formed date string for the given components. -/
def formatYmd (y m d : Nat) : String :=
  String.mk (pad4Chars y ++ '-' :: (pad2Chars m ++ '-' :: pad2Chars d))

/-- A valid calendar date in `datetime`'s supported range. -/
def validDate (y m d : Nat) : Bool :=
  decide (1 ≤ y ∧ y ≤ 9999 ∧ 1 ≤ m ∧ m ≤ 12 ∧ 1 ≤ d ∧ d ≤ daysInMonth y m)

theorem isDigitChar_digitChar48 (n : Nat) (h : n ≤ 9) :
    isDigitChar (digitChar48 n) = true := by
  interval_cases n <;> decide

theorem toNat_digitChar48 (n : Nat) (h : n ≤ 9) : (digitChar48 n).toNat = 48 + n := by
  interval_cases n <;> decide

theorem monthTwo_pad2 (m : Nat) (h1 : 1 ≤ m) (h2 : m ≤ 12) :
    monthTwo (digitChar48 (m / 10)) (digitChar48 (m % 10)) = some m := by
  interval_cases m <;> decide

theorem dayPart_pad2 (d : Nat) (h1 : 1 ≤ d) (h2 : d ≤ 31) :
    dayPart (pad2Chars d) = some d := by
  interval_cases d <;> decide

theorem monthDayPart_pad (m d : Nat) (h1 : 1 ≤ m) (h2 : m ≤ 12) (h3 : 1 ≤ d)
    (h4 : d ≤ 31) :
    monthDayPart (pad2Chars m ++ '-' :: pad2Chars d) = some (m, d) := by
  show monthDayPart
    (digitChar48 (m / 10) :: digitChar48 (m % 10) :: '-' :: pad2Chars d) = some (m, d)
  have h2two : monthDayPartTwo
      (digitChar48 (m / 10) :: digitChar48 (m % 10) :: '-' :: pad2Chars d) = some (m, d) := by
    simp only [monthDayPartTwo, monthTwo_pad2 m h1 h2, dayPart_pad2 d h3 h4, if_pos rfl]
    simp
  simp only [monthDayPart, h2two]

theorem strptimeYmd_formatYmd (y m d : Nat) (h : validDate y m d = true) :
    strptimeYmd (formatYmd y m d) = some (y, m, d) := by
  have hv := of_decide_eq_true h
  obtain ⟨hy1, hy2, hm1, hm2, hd1, hd2⟩ := hv
  have hd31 : d ≤ 31 := by
    have : daysInMonth y m ≤ 31 := by
      unfold daysInMonth
      split_ifs <;> omega
    omega
  have e1 : y / 1000 ≤ 9 := by omega
  have e2 : y / 100 % 10 ≤ 9 := by omega
  have e3 : y / 10 % 10 ≤ 9 := by omega
  have e4 : y % 10 ≤ 9 := by omega
  show strptimeYmdChars
    (digitChar48 (y / 1000) :: digitChar48 (y / 100 % 10) :: digitChar48 (y / 10 % 10)
      :: digitChar48 (y % 10) :: '-' :: (pad2Chars m ++ '-' :: pad2Chars d)) = some (y, m, d)
  have hyval : yearVal (digitChar48 (y / 1000)) (digitChar48 (y / 100 % 10))
      (digitChar48 (y / 10 % 10)) (digitChar48 (y % 10)) = y := by
    unfold yearVal
    rw [toNat_digitChar48 _ e1, toNat_digitChar48 _ e2, toNat_digitChar48 _ e3,
      toNat_digitChar48 _ e4]
    omega
  simp only [strptimeYmdChars, isDigitChar_digitChar48 _ e1, isDigitChar_digitChar48 _ e2,
    isDigitChar_digitChar48 _ e3, isDigitChar_digitChar48 _ e4,
    monthDayPart_pad m d hm1 hm2 hd1 hd31, hyval]
  simp [hy1, hd2]

theorem monthTwo_bounds (a b : Char) (m : Nat) (h : monthTwo a b = some m) :
    1 ≤ m ∧ m ≤ 12 := by
  unfold monthTwo at h
  split_ifs at h with h1 h2
  · obtain ⟨ha, hb1, hb2⟩ := h1
    injection h with h'
    omega
  · obtain ⟨ha, hb1, hb2⟩ := h2
    injection h with h'
    omega

theorem monthOne_bounds (a : Char) (m : Nat) (h : monthOne a = some m) :
    1 ≤ m ∧ m ≤ 12 := by
  unfold monthOne at h
  split_ifs at h with h1
  obtain ⟨hb1, hb2⟩ := h1
  injection h with h'
  omega

theorem dayTwo_bounds (a b : Char) (d : Nat) (h : dayTwo a b = some d) :
    1 ≤ d ∧ d ≤ 31 := by
  unfold dayTwo at h
  split_ifs at h with h1 h2 h3
  · obtain ⟨ha, hb1, hb2⟩ := h1
    injection h with h'
    omega
  · obtain ⟨ha, hb1, hb2⟩ := h2
    injection h with h'
    rcases ha with ha | ha <;> omega
  · obtain ⟨ha, hb1, hb2⟩ := h3
    injection h with h'
    omega

theorem dayOne_bounds (a : Char) (d : Nat) (h : dayOne a = some d) :
    1 ≤ d ∧ d ≤ 31 := by
  unfold dayOne at h
  split_ifs at h with h1
  obtain ⟨hb1, hb2⟩ := h1
  injection h with h'
  omega

theorem dayPart_bounds (l : List Char) (d : Nat) (h : dayPart l = some d) :
    1 ≤ d ∧ d ≤ 31 := by
  match l with
  | [] => exact Option.noConfusion h
  | [a] => exact dayOne_bounds a d h
  | [a, b] => exact dayTwo_bounds a b d h
  | a :: b :: c :: t => exact Option.noConfusion h

theorem monthDayPartTwo_bounds (l : List Char) (m d : Nat)
    (h : monthDayPartTwo l = some (m, d)) : 1 ≤ m ∧ m ≤ 12 ∧ 1 ≤ d ∧ d ≤ 31 := by
  unfold monthDayPartTwo at h
  split at h
  case _ a b c rest =>
    split_ifs at h
    cases hm : monthTwo a b with
    | none => rw [hm] at h; exact Option.noConfusion h
    | some m0 =>
      rw [hm] at h
      cases hd : dayPart rest with
      | none => rw [hd] at h; exact Option.noConfusion h
      | some d0 =>
        rw [hd] at h
        injection h with h'
        rw [Prod.mk.injEq] at h'
        obtain ⟨rfl, rfl⟩ := h'
        obtain ⟨hm1, hm2⟩ := monthTwo_bounds a b m0 hm
        obtain ⟨hd1, hd2⟩ := dayPart_bounds rest d0 hd
        exact ⟨hm1, hm2, hd1, hd2⟩
  case _ => exact Option.noConfusion h

theorem monthDayPartOne_bounds (l : List Char) (m d : Nat)
    (h : monthDayPartOne l = some (m, d)) : 1 ≤ m ∧ m ≤ 12 ∧ 1 ≤ d ∧ d ≤ 31 := by
  unfold monthDayPartOne at h
  split at h
  case _ a b rest =>
    split_ifs at h
    cases hm : monthOne a with
    | none => rw [hm] at h; exact Option.noConfusion h
    | some m0 =>
      rw [hm] at h
      cases hd : dayPart rest with
      | none => rw [hd] at h; exact Option.noConfusion h
      | some d0 =>
        rw [hd] at h
        injection h with h'
        rw [Prod.mk.injEq] at h'
        obtain ⟨rfl, rfl⟩ := h'
        obtain ⟨hm1, hm2⟩ := monthOne_bounds a m0 hm
        obtain ⟨hd1, hd2⟩ := dayPart_bounds rest d0 hd
        exact ⟨hm1, hm2, hd1, hd2⟩
  case _ => exact Option.noConfusion h

theorem monthDayPart_bounds (l : List Char) (m d : Nat)
    (h : monthDayPart l = some (m, d)) : 1 ≤ m ∧ m ≤ 12 ∧ 1 ≤ d ∧ d ≤ 31 := by
  unfold monthDayPart at h
  cases h2 : monthDayPartTwo l with
  | none =>
    rw [h2] at h
    exact monthDayPartOne_bounds l m d h
  | some md =>
    rw [h2] at h
    injection h with h'
    subst h'
    exact monthDayPartTwo_bounds l m d h2

theorem strptimeYmdChars_bounds (l : List Char) (y m d : Nat)
    (h : strptimeYmdChars l = some (y, m, d)) :
    1 ≤ y ∧ 1 ≤ m ∧ m ≤ 12 ∧ 1 ≤ d ∧ d ≤ 31 := by
  unfold strptimeYmdChars at h
  split at h
  case _ y1 y2 y3 y4 sep rest =>
    split_ifs at h
    cases hmd : monthDayPart rest with
    | none => rw [hmd] at h; exact Option.noConfusion h
    | some md =>
      obtain ⟨m0, d0⟩ := md
      rw [hmd] at h
      have h' : (if 1 ≤ yearVal y1 y2 y3 y4 ∧ d0 ≤ daysInMonth (yearVal y1 y2 y3 y4) m0
          then some (yearVal y1 y2 y3 y4, m0, d0) else Option.none) = some (y, m, d) := h
      split_ifs at h' with hy
      injection h' with h''
      rw [Prod.mk.injEq] at h''
      obtain ⟨rfl, h''⟩ := h''
      rw [Prod.mk.injEq] at h''
      obtain ⟨rfl, rfl⟩ := h''
      obtain ⟨hm1, hm2, hd1, hd2⟩ := monthDayPart_bounds rest m0 d0 hmd
      exact ⟨hy.1, hm1, hm2, hd1, hd2⟩
  case _ => exact Option.noConfusion h

theorem parse_date_eq_of_strptime (s : String) (y m d : Nat)
    (h : strptimeYmd s = some (y, m, d)) : parse_date (PyVal.str s) = dateKey y m d := by
  show (match strptimeYmd s with
        | some (y, m, d) => dateKey y m d
        | Option.none => minDateKey) = dateKey y m d
  rw [h]

theorem parse_date_eq_min_of_fail (s : String) (h : strptimeYmd s = Option.none) :
    parse_date (PyVal.str s) = minDateKey := by
  show (match strptimeYmd s with
        | some (y, m, d) => dateKey y m d
        | Option.none => minDateKey) = minDateKey
  rw [h]

theorem parse_date_ge_min (v : PyVal) : minDateKey ≤ parse_date v := by
  cases v with
  | none => exact Nat.le_refl _
  | strList xs => exact Nat.le_refl _
  | str s =>
    cases hp : strptimeYmd s with
    | none => rw [parse_date_eq_min_of_fail s hp]
    | some t =>
      obtain ⟨y, m, d⟩ := t
      rw [parse_date_eq_of_strptime s y m d hp]
      obtain ⟨h1, h2, h3, h4, h5⟩ := strptimeYmdChars_bounds s.data y m d hp
      unfold minDateKey dateKey
      omega

theorem hasValidDate_false_key (e : Entry) (h : hasValidDate e = false) :
    entryDateKey e = minDateKey := by
  unfold hasValidDate at h
  show parse_date (dictGet e "date" PyVal.none) = minDateKey
  cases hv : dictGet e "date" PyVal.none with
  | none => rfl
  | strList xs => rfl
  | str s =>
    rw [hv] at h
    have h' : (strptimeYmd s).isSome = false := h
    cases hp : strptimeYmd s with
    | none => exact parse_date_eq_min_of_fail s hp
    | some v => rw [hp] at h'; simp at h'

/-- Prepend field `k` with value `v` when present; used to build the entry
dict for a given choice of present fields. -/
def optField (k : String) (v : Option PyVal) (e : Entry) : Entry :=
  match v with
  | Option.none => e
  | some x => (k, x) :: e

/-- An entry with exactly the given documented fields present, each holding
a value of its documented type. -/
def mkEntry (t u v : Option String) (kw : Option (List String)) (dt ax gh : Option String) :
    Entry :=
  optField "title" (t.map PyVal.str)
    (optField "url" (u.map PyVal.str)
      (optField "venue" (v.map PyVal.str)
        (optField "keywords" (kw.map PyVal.strList)
          (optField "date" (dt.map PyVal.str)
            (optField "arxiv" (ax.map PyVal.str)
              (optField "github" (gh.map PyVal.str) []))))))

theorem dictGet_optField_none (k : String) (e : Entry) (k2 : String) (d : PyVal) :
    dictGet (optField k Option.none e) k2 d = dictGet e k2 d := rfl

theorem dictGet_optField_ne (k k2 : String) (h : ¬ (k = k2)) (v : Option PyVal) (e : Entry)
    (d : PyVal) : dictGet (optField k v e) k2 d = dictGet e k2 d := by
  cases v <;> simp [optField, dictGet, h]

theorem dictGet_mkEntry_title (t u v : Option String) (kw : Option (List String))
    (dt ax gh : Option String) (dflt : PyVal) :
    dictGet (mkEntry t u v kw dt ax gh) "title" dflt = (t.map PyVal.str).getD dflt := by
  unfold mkEntry
  cases t with
  | some a => rfl
  | none =>
    simp only [Option.map_none']
    rw [dictGet_optField_none, dictGet_optField_ne _ _ (by decide),
      dictGet_optField_ne _ _ (by decide),
      dictGet_optField_ne _ _ (by decide),
      dictGet_optField_ne _ _ (by decide),
      dictGet_optField_ne _ _ (by decide),
      dictGet_optField_ne _ _ (by decide)]
    rfl

theorem dictGet_mkEntry_url (t u v : Option String) (kw : Option (List String))
    (dt ax gh : Option String) (dflt : PyVal) :
    dictGet (mkEntry t u v kw dt ax gh) "url" dflt = (u.map PyVal.str).getD dflt := by
  unfold mkEntry
  rw [dictGet_optField_ne _ _ (by decide)]
  cases u with
  | some a => rfl
  | none =>
    simp only [Option.map_none']
    rw [dictGet_optField_none, dictGet_optField_ne _ _ (by decide),
      dictGet_optField_ne _ _ (by decide),
      dictGet_optField_ne _ _ (by decide),
      dictGet_optField_ne _ _ (by decide),
      dictGet_optField_ne _ _ (by decide)]
    rfl

theorem dictGet_mkEntry_venue (t u v : Option String) (kw : Option (List String))
    (dt ax gh : Option String) (dflt : PyVal) :
    dictGet (mkEntry t u v kw dt ax gh) "venue" dflt = (v.map PyVal.str).getD dflt := by
  unfold mkEntry
  rw [dictGet_optField_ne _ _ (by decide),
    dictGet_optField_ne _ _ (by decide)]
  cases v with
  | some a => rfl
  | none =>
    simp only [Option.map_none']
    rw [dictGet_optField_none, dictGet_optField_ne _ _ (by decide),
      dictGet_optField_ne _ _ (by decide),
      dictGet_optField_ne _ _ (by decide),
      dictGet_optField_ne _ _ (by decide)]
    rfl

theorem dictGet_mkEntry_keywords (t u v : Option String) (kw : Option (List String))
    (dt ax gh : Option String) (dflt : PyVal) :
    dictGet (mkEntry t u v kw dt ax gh) "keywords" dflt = (kw.map PyVal.strList).getD dflt := by
  unfold mkEntry
  rw [dictGet_optField_ne _ _ (by decide),
    dictGet_optField_ne _ _ (by decide),
    dictGet_optField_ne _ _ (by decide)]
  cases kw with
  | some a => rfl
  | none =>
    simp only [Option.map_none']
    rw [dictGet_optField_none, dictGet_optField_ne _ _ (by decide),
      dictGet_optField_ne _ _ (by decide),
      dictGet_optField_ne _ _ (by decide)]
    rfl

theorem dictGet_mkEntry_date (t u v : Option String) (kw : Option (List String))
    (dt ax gh : Option String) (dflt : PyVal) :
    dictGet (mkEntry t u v kw dt ax gh) "date" dflt = (dt.map PyVal.str).getD dflt := by
  unfold mkEntry
  rw [dictGet_optField_ne _ _ (by decide),
    dictGet_optField_ne _ _ (by decide),
    dictGet_optField_ne _ _ (by decide),
    dictGet_optField_ne _ _ (by decide)]
  cases dt with
  | some a => rfl
  | none =>
    simp only [Option.map_none']
    rw [dictGet_optField_none, dictGet_optField_ne _ _ (by decide),
      dictGet_optField_ne _ _ (by decide)]
    rfl

theorem dictGet_mkEntry_arxiv (t u v : Option String) (kw : Option (List String))
    (dt ax gh : Option String) (dflt : PyVal) :
    dictGet (mkEntry t u v kw dt ax gh) "arxiv" dflt = (ax.map PyVal.str).getD dflt := by
  unfold mkEntry
  rw [dictGet_optField_ne _ _ (by decide),
    dictGet_optField_ne _ _ (by decide),
    dictGet_optField_ne _ _ (by decide),
    dictGet_optField_ne _ _ (by decide),
    dictGet_optField_ne _ _ (by decide)]
  cases ax with
  | some a => rfl
  | none =>
    simp only [Option.map_none']
    rw [dictGet_optField_none, dictGet_optField_ne _ _ (by decide)]
    rfl

theorem dictGet_mkEntry_github (t u v : Option String) (kw : Option (List String))
    (dt ax gh : Option String) (dflt : PyVal) :
    dictGet (mkEntry t u v kw dt ax gh) "github" dflt = (gh.map PyVal.str).getD dflt := by
  unfold mkEntry
  rw [dictGet_optField_ne _ _ (by decide),
    dictGet_optField_ne _ _ (by decide),
    dictGet_optField_ne _ _ (by decide),
    dictGet_optField_ne _ _ (by decide),
    dictGet_optField_ne _ _ (by decide),
    dictGet_optField_ne _ _ (by decide)]
  cases gh with
  | some a => rfl
  | none =>
    simp only [Option.map_none']
    rw [dictGet_optField_none]
    rfl

/-- The spec's badge contract (section 4.4): an arXiv badge exactly when
`arxiv` is present and non-empty, a GitHub badge exactly when `github` is
present and non-empty, arXiv first and a single space between them when
both are emitted. -/
def specBadges (ax gh : Option String) : String :=
  match ax, gh with
  | some a, some g =>
    if a = "" then (if g = "" then "" else githubBadgeStr g)
    else if g = "" then arxivBadgeStr a
    else arxivBadgeStr a ++ " " ++ githubBadgeStr g
  | some a, Option.none => if a = "" then "" else arxivBadgeStr a
  | Option.none, some g => if g = "" then "" else githubBadgeStr g
  | Option.none, Option.none => ""

/-- The spec's keywords clause: a trailing italicised keywords line exactly
when the joined keyword list is non-empty. -/
def specKwSuffix (kw : Option (List String)) : String :=
  match kw with
  | Option.none => ""
  | some ks =>
    if joinSep ", " ks = "" then "" else " <br> _Keywords: " ++ joinSep ", " ks ++ "_"

/-- The spec's rendered block for an entry with the given present fields:
documented defaults for every absent field, badges per `specBadges`,
keywords line per `specKwSuffix`. -/
def specEntryLine (t u v : Option String) (kw : Option (List String)) (ax gh : Option String) :
    String :=
  let line := "**" ++ t.getD "Untitled" ++ "** <br> [`" ++ v.getD "Preprint" ++ "`]("
    ++ u.getD "#" ++ ") " ++ specBadges ax gh
  let kws := joinSep ", " (kw.getD [])
  (if kws = "" then line else line ++ " <br> _Keywords: " ++ kws ++ "_") ++ " <br> <br> "

theorem generate_badges_mkEntry (t u v : Option String) (kw : Option (List String))
    (dt ax gh : Option String) :
    generate_badges (mkEntry t u v kw dt ax gh) = specBadges ax gh := by
  unfold generate_badges
  rw [dictGet_mkEntry_arxiv, dictGet_mkEntry_github]
  cases ax with
  | none =>
    cases gh with
    | none => rfl
    | some g => by_cases hg : g = "" <;> simp [specBadges, pyTruthy, pyStr, joinSep, hg]
  | some a =>
    cases gh with
    | none => by_cases ha : a = "" <;> simp [specBadges, pyTruthy, pyStr, joinSep, ha]
    | some g =>
      by_cases ha : a = "" <;> by_cases hg : g = "" <;>
        simp [specBadges, pyTruthy, pyStr, joinSep, ha, hg]

theorem format_entry_mkEntry (t u v : Option String) (kw : Option (List String))
    (dt ax gh : Option String) :
    format_entry (mkEntry t u v kw dt ax gh) = some (specEntryLine t u v kw ax gh) := by
  simp only [format_entry, specEntryLine, dictGet_mkEntry_title, dictGet_mkEntry_url,
    dictGet_mkEntry_venue, dictGet_mkEntry_keywords, generate_badges_mkEntry]
  cases t <;> cases u <;> cases v <;> cases kw <;>
    simp [pyStr, pyJoinVal, joinSep]

/-- An entry whose `title`, `url` and `venue` keys are present but bound to
JSON null, with optional typed `keywords`, `arxiv`, `github`. -/
def nullFieldsEntry (kw : Option (List String)) (ax gh : Option String) : Entry :=
  ("title", PyVal.none) :: ("url", PyVal.none) :: ("venue", PyVal.none) ::
    optField "keywords" (kw.map PyVal.strList)
      (optField "arxiv" (ax.map PyVal.str) (optField "github" (gh.map PyVal.str) []))

theorem dictGet_nullFieldsEntry_arxiv (kw : Option (List String)) (ax gh : Option String)
    (dflt : PyVal) :
    dictGet (nullFieldsEntry kw ax gh) "arxiv" dflt = (ax.map PyVal.str).getD dflt := by
  unfold nullFieldsEntry
  show dictGet (optField "keywords" (kw.map PyVal.strList) _) "arxiv" dflt = _
  rw [dictGet_optField_ne _ _ (by decide)]
  cases ax with
  | some a => rfl
  | none =>
    simp only [Option.map_none']
    rw [dictGet_optField_none, dictGet_optField_ne _ _ (by decide)]
    rfl

theorem dictGet_nullFieldsEntry_github (kw : Option (List String)) (ax gh : Option String)
    (dflt : PyVal) :
    dictGet (nullFieldsEntry kw ax gh) "github" dflt = (gh.map PyVal.str).getD dflt := by
  unfold nullFieldsEntry
  show dictGet (optField "keywords" (kw.map PyVal.strList) _) "github" dflt = _
  rw [dictGet_optField_ne _ _ (by decide), dictGet_optField_ne _ _ (by decide)]
  cases gh with
  | some g => rfl
  | none =>
    simp only [Option.map_none']
    rw [dictGet_optField_none]
    rfl

theorem dictGet_nullFieldsEntry_keywords (kw : Option (List String)) (ax gh : Option String)
    (dflt : PyVal) :
    dictGet (nullFieldsEntry kw ax gh) "keywords" dflt = (kw.map PyVal.strList).getD dflt := by
  unfold nullFieldsEntry
  show dictGet (optField "keywords" (kw.map PyVal.strList) _) "keywords" dflt = _
  cases kw with
  | some ks => rfl
  | none =>
    simp only [Option.map_none']
    rw [dictGet_optField_none, dictGet_optField_ne _ _ (by decide),
      dictGet_optField_ne _ _ (by decide)]
    rfl

theorem generate_badges_nullFieldsEntry (kw : Option (List String)) (ax gh : Option String) :
    generate_badges (nullFieldsEntry kw ax gh) = specBadges ax gh := by
  unfold generate_badges
  rw [dictGet_nullFieldsEntry_arxiv, dictGet_nullFieldsEntry_github]
  cases ax with
  | none =>
    cases gh with
    | none => rfl
    | some g => by_cases hg : g = "" <;> simp [specBadges, pyTruthy, pyStr, joinSep, hg]
  | some a =>
    cases gh with
    | none => by_cases ha : a = "" <;> simp [specBadges, pyTruthy, pyStr, joinSep, ha]
    | some g =>
      by_cases ha : a = "" <;> by_cases hg : g = "" <;>
        simp [specBadges, pyTruthy, pyStr, joinSep, ha, hg]

/-- An entry with no `date` field: its parse falls back to the sentinel. -/
def entryNoDate : Entry := [("title", PyVal.str "Old Invalid")]

/-- An entry with the valid date 0001-01-01, which parses to exactly
`datetime.min`, the same key the sentinel uses. -/
def entryEpoch : Entry := [("title", PyVal.str "Epoch"), ("date", PyVal.str "0001-01-01")]

/-- An entry dated 2023-01-01. -/
def entryA2023 : Entry := [("title", PyVal.str "A"), ("date", PyVal.str "2023-01-01")]

/-- An entry dated 2024-01-01. -/
def entryB2024 : Entry := [("title", PyVal.str "B"), ("date", PyVal.str "2024-01-01")]

/-- A catalog whose papers list is out of date order. -/
def catAB : Catalog := [("papers", [entryA2023, entryB2024])]

/-- A catalog with an empty papers list, a non-empty benchmarks list, no
datasets key, and an unrecognized key. -/
def catC6 : Catalog := [("papers", []), ("benchmarks", [entryA2023]), ("extra", [entryB2024])]

/-- Two catalogs agreeing on the three category keys but differing in key
order and unrecognized keys. -/
def catC9a : Catalog := [("papers", [entryA2023]), ("unrecognized", [entryB2024])]

/-- See `catC9a`. -/
def catC9b : Catalog := [("extra2", []), ("papers", [entryA2023])]

/-- C1 counterexample: the claim as stated is false.  `entryEpoch` has a
valid date (0001-01-01), `entryNoDate` has none, yet the stable descending
sort leaves the invalid-date entry first (both dates parse to the sentinel
`datetime.min`), so the rendered Papers section lists the invalid-date
entry before the valid-date one. -/
theorem C1_counterexample :
    hasValidDate entryEpoch = true ∧ hasValidDate entryNoDate = false ∧
    sortDesc entryDateKey [entryNoDate, entryEpoch] = [entryNoDate, entryEpoch] ∧
    sectionStr "Papers" [entryNoDate, entryEpoch]
      = some "## Papers\n\n**Old Invalid** <br> [`Preprint`](#)  <br> <br> \n**Epoch** <br> [`Preprint`](#)  <br> <br> \n" :=
  ⟨rfl, rfl, rfl, rfl⟩

/-- C1 (amended): in the sorted entry list a rendered section follows,
every entry with an invalid or absent date (its parse is the sentinel)
appears after every entry whose parsed date is strictly later than the
sentinel 0001-01-01; an entry whose valid date is exactly 0001-01-01 ties
with invalid entries and keeps input order instead. -/
theorem C1_invalid_dates_sort_after_later_dates
    (entries : List Entry) (i j : Fin (sortDesc entryDateKey entries).length)
    (h1 : hasValidDate ((sortDesc entryDateKey entries).get i) = false)
    (hv : hasValidDate ((sortDesc entryDateKey entries).get j) = true)
    (h2 : minDateKey < entryDateKey ((sortDesc entryDateKey entries).get j)) :
    (j : Nat) < (i : Nat) := by
  have hkey := hasValidDate_false_key _ h1
  rcases Nat.lt_trichotomy (i : Nat) (j : Nat) with hij | hij | hij
  · have hle := (List.pairwise_iff_get.mp (sortDesc_pairwise entryDateKey entries)) i j hij
    omega
  · have hg : (sortDesc entryDateKey entries).get i = (sortDesc entryDateKey entries).get j := by
      congr 1
      exact Fin.ext hij
    rw [← hg] at h2
    omega
  · exact hij

/-- C1 witness: a concrete invalid-date entry sorts after a 2024-dated one. -/
theorem C1_witness :
    hasValidDate ((sortDesc entryDateKey [entryNoDate, entryB2024]).get ⟨1, by decide⟩) = false ∧
    hasValidDate ((sortDesc entryDateKey [entryNoDate, entryB2024]).get ⟨0, by decide⟩) = true ∧
    minDateKey < entryDateKey ((sortDesc entryDateKey [entryNoDate, entryB2024]).get ⟨0, by decide⟩) ∧
    (0 : Nat) < 1 :=
  ⟨by decide, by decide, by decide,
    C1_invalid_dates_sort_after_later_dates [entryNoDate, entryB2024]
      ⟨1, by decide⟩ ⟨0, by decide⟩ (by decide) (by decide) (by decide)⟩

/-- C2: the per-category sort is stable: restricted to any fixed parsed
date, the sorted list keeps exactly the input's entries in the input's
relative order. -/
theorem C2_sort_stable (entries : List Entry) (v : Nat) :
    (sortDesc entryDateKey entries).filter (fun e => entryDateKey e == v)
      = entries.filter (fun e => entryDateKey e == v) :=
  sortDesc_filter entryDateKey v entries

/-- C3: the date parser is total and sentinel-valued on failure: every
result is at least the sentinel; every non-string input yields the
sentinel; every string the `strptime` model rejects yields the sentinel;
and every well-formed `YYYY-MM-DD` rendering of a valid calendar date
parses to that date's key. -/
theorem C3_parse_date_total :
    (∀ w : PyVal, minDateKey ≤ parse_date w) ∧
    (∀ w : PyVal, (∀ s : String, w ≠ PyVal.str s) → parse_date w = minDateKey) ∧
    (∀ s : String, strptimeYmd s = Option.none → parse_date (PyVal.str s) = minDateKey) ∧
    (∀ y m d : Nat, validDate y m d = true →
      parse_date (PyVal.str (formatYmd y m d)) = dateKey y m d ∧ minDateKey ≤ dateKey y m d) := by
  refine ⟨parse_date_ge_min, ?_, parse_date_eq_min_of_fail, ?_⟩
  · intro w hw
    cases w with
    | none => rfl
    | strList xs => rfl
    | str s => exact absurd rfl (hw s)
  · intro y m d h
    have hv := of_decide_eq_true h
    obtain ⟨h1, h2, h3, h4, h5, h6⟩ := hv
    refine ⟨parse_date_eq_of_strptime _ _ _ _ (strptimeYmd_formatYmd y m d h), ?_⟩
    unfold minDateKey dateKey
    omega

/-- C3 witness: a leap date parses to its key; an impossible date and a
null input both yield the sentinel. -/
theorem C3_witness :
    parse_date (PyVal.str (formatYmd 2024 2 29)) = dateKey 2024 2 29 ∧
    parse_date (PyVal.str "2023-02-29") = minDateKey ∧
    parse_date PyVal.none = minDateKey :=
  ⟨(C3_parse_date_total.2.2.2 2024 2 29 (by decide)).1,
   C3_parse_date_total.2.2.1 "2023-02-29" (by decide),
   C3_parse_date_total.2.1 PyVal.none (fun s h => PyVal.noConfusion h)⟩

/-- C4: for every choice of present/absent documented fields (present ones
holding values of their documented types), rendering succeeds and the
result uses the documented defaults for the absent fields: title
"Untitled", url "#", venue "Preprint", no keywords line for absent
keywords, and badges only for present non-empty arxiv/github links. -/
theorem C4_absent_fields_render_with_defaults (t u v : Option String)
    (kw : Option (List String)) (dt ax gh : Option String) :
    format_entry (mkEntry t u v kw dt ax gh) = some (specEntryLine t u v kw ax gh) :=
  format_entry_mkEntry t u v kw dt ax gh

/-- C5: the badge generator emits the arXiv badge iff `arxiv` is present
and non-empty and the GitHub badge iff `github` is present and non-empty;
with both, exactly the two badges appear, arXiv first, separated by a
single space (`specBadges` states the contract case by case). -/
theorem C5_badges_iff_present_nonempty (t u v : Option String)
    (kw : Option (List String)) (dt ax gh : Option String) :
    generate_badges (mkEntry t u v kw dt ax gh) = specBadges ax gh :=
  generate_badges_mkEntry t u v kw dt ax gh

/-- C6: whenever generation produces a document, it is the intro plus the
three sections in fixed order; a category with an empty or absent entry
list contributes an empty section (no heading), while each non-empty
category's section is present and starts with its level-2 heading. -/
theorem C6_empty_category_section (data : Catalog) (s : String)
    (h : (generate data).1 = some s) :
    ∃ s1 s2 s3,
      sectionStr "Papers" (catGet data "papers") = some s1 ∧
      sectionStr "Benchmarks" (catGet data "benchmarks") = some s2 ∧
      sectionStr "Datasets" (catGet data "datasets") = some s3 ∧
      s = joinSep "\n" [generate_intro, s1, s2, s3] ∧
      (catGet data "papers" = [] → s1 = "") ∧
      (catGet data "papers" ≠ [] → ∃ r, s1 = "## " ++ "Papers" ++ "\n" ++ r) ∧
      (catGet data "benchmarks" = [] → s2 = "") ∧
      (catGet data "benchmarks" ≠ [] → ∃ r, s2 = "## " ++ "Benchmarks" ++ "\n" ++ r) ∧
      (catGet data "datasets" = [] → s3 = "") ∧
      (catGet data "datasets" ≠ [] → ∃ r, s3 = "## " ++ "Datasets" ++ "\n" ++ r) := by
  rw [generate_fst] at h
  obtain ⟨s1, s2, s3, h1, h2, h3, rfl⟩ := assembleDoc_eq_some _ _ _ _ h
  refine ⟨s1, s2, s3, h1, h2, h3, rfl, ?_, ?_, ?_, ?_, ?_, ?_⟩
  · intro he; rw [he, sectionStr_empty] at h1; exact (Option.some.inj h1).symm
  · intro he; exact sectionStr_heading _ _ _ he h1
  · intro he; rw [he, sectionStr_empty] at h2; exact (Option.some.inj h2).symm
  · intro he; exact sectionStr_heading _ _ _ he h2
  · intro he; rw [he, sectionStr_empty] at h3; exact (Option.some.inj h3).symm
  · intro he; exact sectionStr_heading _ _ _ he h3

/-- The document the generator produces for `catC6`. -/
def catC6Doc : String := ((generate catC6).1).getD ""

/-- C6 witness: a catalog with empty papers, one benchmark and no datasets
key still renders, with the other sections as described. -/
theorem C6_witness :
    ∃ s1 s2 s3,
      sectionStr "Papers" (catGet catC6 "papers") = some s1 ∧
      sectionStr "Benchmarks" (catGet catC6 "benchmarks") = some s2 ∧
      sectionStr "Datasets" (catGet catC6 "datasets") = some s3 ∧
      catC6Doc = joinSep "\n" [generate_intro, s1, s2, s3] ∧
      (catGet catC6 "papers" = [] → s1 = "") ∧
      (catGet catC6 "papers" ≠ [] → ∃ r, s1 = "## " ++ "Papers" ++ "\n" ++ r) ∧
      (catGet catC6 "benchmarks" = [] → s2 = "") ∧
      (catGet catC6 "benchmarks" ≠ [] → ∃ r, s2 = "## " ++ "Benchmarks" ++ "\n" ++ r) ∧
      (catGet catC6 "datasets" = [] → s3 = "") ∧
      (catGet catC6 "datasets" ≠ [] → ∃ r, s3 = "## " ++ "Datasets" ++ "\n" ++ r) :=
  C6_empty_category_section catC6 catC6Doc rfl

/-- C7: when the input path does not exist, the run fails with the
missing-file error and performs no write: the output file store is
unchanged. -/
theorem C7_missing_input_no_output (fs : String → Option Catalog)
    (out0 : String → Option String) (jsonPath outPath : String)
    (h : fs jsonPath = Option.none) :
    run_program fs jsonPath outPath = Except.error ("Could not find " ++ jsonPath) ∧
    finalOutFS out0 (run_program fs jsonPath outPath) = out0 := by
  have hrun : run_program fs jsonPath outPath
      = Except.error ("Could not find " ++ jsonPath) := by
    unfold run_program load_data
    rw [h]
  exact ⟨hrun, by rw [hrun]; rfl⟩

/-- C7 witness: on an empty file system the run errors and writes nothing. -/
theorem C7_witness :
    run_program (fun _ => Option.none) "citations.json" "README.md"
      = Except.error ("Could not find " ++ "citations.json") ∧
    finalOutFS (fun _ => Option.none)
        (run_program (fun _ => Option.none) "citations.json" "README.md")
      = (fun _ => Option.none) :=
  C7_missing_input_no_output (fun _ => Option.none) (fun _ => Option.none)
    "citations.json" "README.md" rfl

/-- C8 counterexample: the claim as stated is false.  Generation mutates
the in-memory catalog: for a papers list stored out of date order, the
catalog after `generate` holds the re-sorted list, not the loaded one. -/
theorem C8_counterexample :
    (generate catAB).2 ≠ catAB ∧
    (generate catAB).2 = [("papers", [entryB2024, entryA2023])] := by
  constructor
  · decide
  · rfl

/-- C8 (amended): generation sorts the stored category lists in place, so
the in-memory catalog is not read-only; what holds instead is that every
key's entry list after generation is a permutation of the loaded one, and
every key other than the three category keys is left exactly unchanged
(and nothing is ever written back to the source file). -/
theorem C8_state_perm_frame (data : Catalog) (key : String) :
    ((catGet ((generate data).2) key).Perm (catGet data key)) ∧
    (key ≠ "papers" → key ≠ "benchmarks" → key ≠ "datasets" →
      catGet ((generate data).2) key = catGet data key) := by
  rcases generate_snd_cases data with hg | hg | hg <;> rw [hg]
  · refine ⟨(catGet_sectionState_perm _ _ _).trans
      ((catGet_sectionState_perm _ _ _).trans (catGet_sectionState_perm _ _ _)), ?_⟩
    intro h1 h2 h3
    rw [catGet_sectionState_ne _ _ _ h3, catGet_sectionState_ne _ _ _ h2,
      catGet_sectionState_ne _ _ _ h1]
  · refine ⟨(catGet_sectionState_perm _ _ _).trans (catGet_sectionState_perm _ _ _), ?_⟩
    intro h1 h2 h3
    rw [catGet_sectionState_ne _ _ _ h2, catGet_sectionState_ne _ _ _ h1]
  · refine ⟨catGet_sectionState_perm _ _ _, ?_⟩
    intro h1 h2 h3
    rw [catGet_sectionState_ne _ _ _ h1]

/-- C8 witness: the sorted papers list is a permutation of the input one,
and an unrecognized key is untouched. -/
theorem C8_witness :
    (catGet ((generate catAB).2) "papers").Perm (catGet catAB "papers") ∧
    catGet ((generate catAB).2) "other" = catGet catAB "other" :=
  ⟨(C8_state_perm_frame catAB "papers").1,
   (C8_state_perm_frame catAB "other").2 (by decide) (by decide) (by decide)⟩

/-- C9: the generated document depends only on the values stored under the
three fixed category keys — two catalogs agreeing there produce identical
documents regardless of key order or extra keys — and every produced
document is the intro followed by the Papers, Benchmarks and Datasets
sections in that fixed order. -/
theorem C9_output_depends_only_on_categories :
    (∀ d1 d2 : Catalog,
      catGet d1 "papers" = catGet d2 "papers" →
      catGet d1 "benchmarks" = catGet d2 "benchmarks" →
      catGet d1 "datasets" = catGet d2 "datasets" →
      (generate d1).1 = (generate d2).1) ∧
    (∀ (data : Catalog) (s : String), (generate data).1 = some s →
      ∃ s1 s2 s3, sectionStr "Papers" (catGet data "papers") = some s1 ∧
        sectionStr "Benchmarks" (catGet data "benchmarks") = some s2 ∧
        sectionStr "Datasets" (catGet data "datasets") = some s3 ∧
        s = joinSep "\n" [generate_intro, s1, s2, s3]) := by
  constructor
  · intro d1 d2 h1 h2 h3
    rw [generate_fst, generate_fst, h1, h2, h3]
  · intro data s h
    rw [generate_fst] at h
    exact assembleDoc_eq_some _ _ _ _ h

/-- C9 witness: two catalogs with the same papers list but different key
order and different unrecognized keys produce the same document. -/
theorem C9_witness : (generate catC9a).1 = (generate catC9b).1 :=
  C9_output_depends_only_on_categories.1 catC9a catC9b rfl rfl rfl

/-- C10: default substitution applies only to absent keys: when `title`,
`url` and `venue` are present but null, the rendered block interpolates
Python's textual form of null ("None") instead of the documented defaults. -/
theorem C10_null_values_render_verbatim (kw : Option (List String)) (ax gh : Option String) :
    format_entry (nullFieldsEntry kw ax gh)
      = some ("**None** <br> [`None`](None) " ++ specBadges ax gh
          ++ specKwSuffix kw ++ " <br> <br> ") := by
  have hkw := dictGet_nullFieldsEntry_keywords kw ax gh (PyVal.strList [])
  have hbg := generate_badges_nullFieldsEntry kw ax gh
  have ht1 : dictGet (nullFieldsEntry kw ax gh) "title" (PyVal.str "Untitled")
      = PyVal.none := rfl
  have ht2 : dictGet (nullFieldsEntry kw ax gh) "url" (PyVal.str "#") = PyVal.none := rfl
  have ht3 : dictGet (nullFieldsEntry kw ax gh) "venue" (PyVal.str "Preprint")
      = PyVal.none := rfl
  simp only [format_entry, hkw, hbg, ht1, ht2, ht3, pyStr]
  cases kw with
  | none => simp [pyJoinVal, joinSep, specKwSuffix, String.append_assoc]
  | some ks =>
    simp only [Option.map_some', Option.getD_some, pyJoinVal, specKwSuffix]
    by_cases hk : joinSep ", " ks = "" <;> simp [hk, String.append_assoc]
